import Mathlib

/-!
Verification of the VBL Krones alarm-simulation core.

Shallow embedding of `krones_alarm_data.py` and the simulation parts of
`krones_opcua_server.py`.  Timestamps are modelled as integers counting
milliseconds (the CSV timestamps carry millisecond precision), so
300 seconds is the gap value 300000 and 300.001 seconds is 300001.
-/

/-- Round a rational to the nearest integer, ties going to the even
integer (the IEEE default rounding of a halfway value). -/
def rndHalfEven (q : ℚ) : Int :=
  if q - ⌊q⌋ < 1 / 2 then ⌊q⌋
  else if 1 / 2 < q - ⌊q⌋ then ⌊q⌋ + 1
  else if ⌊q⌋ % 2 = 0 then ⌊q⌋ else ⌊q⌋ + 1

/-- Round a rational to the nearest IEEE binary64 double: 53-bit
significand, round to nearest, ties to even.  Overflow and subnormals are
far outside the range of every value the simulation computes, so the
normal-range rule is the whole model. -/
def fl (q : ℚ) : ℚ :=
  if q = 0 then 0
  else (rndHalfEven (q / 2 ^ (Int.log 2 |q| - 52)) : ℚ) *
    2 ^ (Int.log 2 |q| - 52)

/-- Python `int(...)` applied to a float: truncation toward zero. -/
def ratTrunc (q : ℚ) : Int := if 0 ≤ q then ⌊q⌋ else ⌈q⌉

theorem rndHalfEven_err (q : ℚ) : |(rndHalfEven q : ℚ) - q| ≤ 1 / 2 := by
  have h0 := Int.floor_le q
  have h1 := Int.lt_floor_add_one q
  unfold rndHalfEven
  split_ifs with hf hg he <;>
    (rw [abs_le]; constructor <;> push_cast <;> linarith)

theorem fl_zero : fl 0 = 0 := by
  unfold fl
  rw [if_pos rfl]

/-- Rounding to a double loses at most half an ulp: for positive `q` the
relative error is bounded by `2 ^ (-53)`. -/
theorem fl_err (q : ℚ) (hq : 0 < q) : |fl q - q| ≤ q / 9007199254740992 := by
  unfold fl
  rw [if_neg (ne_of_gt hq), abs_of_pos hq]
  set e : ℤ := Int.log 2 q - 52 with he
  have h2e : (0:ℚ) < (2:ℚ) ^ e := zpow_pos (by norm_num) e
  have hlow : (2:ℚ) ^ (Int.log 2 q) ≤ q := by
    have h := Int.zpow_log_le_self (b := 2) (r := q) (by norm_num) hq
    push_cast at h
    exact h
  have hlow2 : (2:ℚ) ^ e * 4503599627370496 ≤ q := by
    have h52 : (2:ℚ) ^ e * 4503599627370496 = (2:ℚ) ^ (e + 52) := by
      rw [zpow_add₀ (by norm_num : (2:ℚ) ≠ 0) e 52]
      norm_num
    rw [h52, he]
    have hadd : Int.log 2 q - 52 + 52 = Int.log 2 q := by omega
    rw [hadd]
    exact hlow
  have herr := rndHalfEven_err (q / 2 ^ e)
  have hkey : |(rndHalfEven (q / 2 ^ e) : ℚ) * 2 ^ e - q| ≤ 2 ^ e / 2 := by
    have heq : (rndHalfEven (q / 2 ^ e) : ℚ) * 2 ^ e - q =
        ((rndHalfEven (q / 2 ^ e) : ℚ) - q / 2 ^ e) * 2 ^ e := by
      field_simp
    rw [heq, abs_mul, abs_of_pos h2e]
    calc |(rndHalfEven (q / 2 ^ e) : ℚ) - q / 2 ^ e| * 2 ^ e
        ≤ (1 / 2) * 2 ^ e := mul_le_mul_of_nonneg_right herr h2e.le
      _ = 2 ^ e / 2 := by ring
  refine le_trans hkey ?_
  rw [div_le_div_iff₀ (by norm_num) (by norm_num)]
  linarith

/-- The rounding of a nonpositive value is nonpositive. -/
theorem fl_nonpos (q : ℚ) (hq : q ≤ 0) : fl q ≤ 0 := by
  unfold fl
  split
  · norm_num
  · rename_i hne
    have hqlt : q < 0 := lt_of_le_of_ne hq hne
    set e : ℤ := Int.log 2 |q| - 52
    have h2e : (0:ℚ) < (2:ℚ) ^ e := zpow_pos (by norm_num) e
    have hx : q / 2 ^ e < 0 := div_neg_of_neg_of_pos hqlt h2e
    have hfl : ⌊q / 2 ^ e⌋ ≤ -1 := by
      by_contra hcon
      push_neg at hcon
      have h0 : (0:ℤ) ≤ ⌊q / 2 ^ e⌋ := by omega
      have h0q : (0:ℚ) ≤ (⌊q / 2 ^ e⌋ : ℚ) := by exact_mod_cast h0
      linarith [Int.floor_le (q / 2 ^ e)]
    have hrnd : rndHalfEven (q / 2 ^ e) ≤ 0 := by
      unfold rndHalfEven
      split_ifs <;> omega
    have hrndq : ((rndHalfEven (q / 2 ^ e) : ℚ)) ≤ 0 := by exact_mod_cast hrnd
    exact mul_nonpos_iff.mpr (Or.inr ⟨hrndq, h2e.le⟩)

/-- Evaluation rule for `fl` at a positive value lying in the binade
`[2 ^ (e + 52), 2 ^ (e + 53))`. -/
theorem fl_eval {q : ℚ} {e : ℤ} {m : ℤ} (hq : 0 < q)
    (hlow : (2:ℚ) ^ (e + 52) ≤ q)
    (hhigh : q < (2:ℚ) ^ (e + 53))
    (hm : rndHalfEven (q / 2 ^ e) = m) :
    fl q = (m : ℚ) * 2 ^ e := by
  have hlog : Int.log 2 |q| = e + 52 := by
    rw [abs_of_pos hq]
    have h1 : e + 52 ≤ Int.log 2 q := by
      apply (Int.zpow_le_iff_le_log (by norm_num) hq).mp
      push_cast
      exact hlow
    have h2 : Int.log 2 q < e + 53 := by
      apply (Int.lt_zpow_iff_log_lt (by norm_num) hq).mp
      push_cast
      exact hhigh
    omega
  unfold fl
  rw [if_neg (ne_of_gt hq), hlog]
  have he52 : e + 52 - 52 = e := by omega
  rw [he52, hm]

theorem rndHalfEven_eq_floor {x : ℚ} {n : ℤ} (h1 : ⌊x⌋ = n)
    (h2 : x - (n : ℚ) < 1 / 2) : rndHalfEven x = n := by
  unfold rndHalfEven
  rw [h1, if_pos h2]

theorem rndHalfEven_eq_succ (n : ℤ) {x : ℚ} {m : ℤ} (h1 : ⌊x⌋ = n)
    (h2 : 1 / 2 < x - (n : ℚ)) (h3 : n + 1 = m) : rndHalfEven x = m := by
  unfold rndHalfEven
  rw [h1, if_neg (by linarith), if_pos h2]
  exact h3

theorem rndHalfEven_eq_tie_odd (n : ℤ) {x : ℚ} {m : ℤ} (h1 : ⌊x⌋ = n)
    (h2 : x - (n : ℚ) = 1 / 2) (hodd : n % 2 = 1) (h3 : n + 1 = m) :
    rndHalfEven x = m := by
  unfold rndHalfEven
  rw [h1, if_neg (by rw [h2]; norm_num), if_neg (by rw [h2]; norm_num),
    if_neg (by omega)]
  exact h3

/-- Python's `int(delta.total_seconds() * 1000)` for a timestamp
difference of `d` milliseconds (so `1000 * d` microseconds): one
correctly-rounded double division by `10 ^ 6`, one correctly-rounded
double multiplication by `1000`, then truncation toward zero. -/
def pyDurationMs (d : Int) : Int :=
  ratTrunc (fl (fl (((1000 * d : Int) : ℚ) / 1000000) * 1000))

/-- Embedding of the `KronesAlarm` dataclass of `krones_alarm_data.py`.
`comes_timestamp` and `goes_timestamp` are in integer milliseconds. -/
structure KronesAlarm where
  module : String
  msg_nr : Int
  alarm_type : String
  message : String
  sw_ref : String
  comes_timestamp : Int
  goes_timestamp : Option Int := none
  duration_ms : Option Int := none
deriving DecidableEq

/-- Model of `KronesAlarm.__post_init__`: when both timestamps are present
the duration is computed as `int(delta.total_seconds() * 1000)`, i.e. the
millisecond difference pushed through double-precision division and
multiplication before truncation. -/
def post_init (a : KronesAlarm) : KronesAlarm :=
  match a.goes_timestamp with
  | some g => { a with duration_ms := some (pyDurationMs (g - a.comes_timestamp)) }
  | none => a

/-- Constructing a `KronesAlarm` the way `_parse_alarm_row` does: no
duration is passed, then `__post_init__` runs. -/
def mkKronesAlarm (module : String) (msg_nr : Int) (atype msg ref : String)
    (comes : Int) (goes : Option Int) : KronesAlarm :=
  post_init
    { module := module, msg_nr := msg_nr, alarm_type := atype, message := msg,
      sw_ref := ref, comes_timestamp := comes, goes_timestamp := goes,
      duration_ms := none }

/-- Model of `sorted(self.alarms, key=lambda x: x.comes_timestamp)`: a stable sort
by activation timestamp. -/
def sortedAlarms (l : List KronesAlarm) : List KronesAlarm :=
  l.insertionSort (fun a b => a.comes_timestamp ≤ b.comes_timestamp)

/-- The loop body of `get_cascading_sequences`: `last` is the previous
record's timestamp, `cur` the running sequence (time order).  A gap of at
most 300 seconds (300000 ms) extends the running sequence; a larger gap
closes it (kept only when it has 3 or more members) and starts a new
sequence with the current record.  The final sequence is flushed under the
same length rule. -/
def cascadeAux (last : Int) (cur : List KronesAlarm) :
    List KronesAlarm → List (List KronesAlarm)
  | [] => if 3 ≤ cur.length then [cur] else []
  | a :: rest =>
      if a.comes_timestamp - last ≤ 300000 then
        cascadeAux a.comes_timestamp (cur ++ [a]) rest
      else
        (if 3 ≤ cur.length then [cur] else []) ++
          cascadeAux a.comes_timestamp [a] rest

/-- Model of `KronesAlarmDataParser.get_cascading_sequences`. -/
def get_cascading_sequences (alarms : List KronesAlarm) :
    List (List KronesAlarm) :=
  match sortedAlarms alarms with
  | [] => []
  | a :: rest => cascadeAux a.comes_timestamp [a] rest

/-- A minimal alarm with a given activation timestamp, used for concrete
test inputs. -/
def mkT (t : Int) : KronesAlarm :=
  { module := "MMA", msg_nr := 1, alarm_type := "Warning", message := "m",
    sw_ref := "r", comes_timestamp := t }

/-- Every sequence emitted by the cascade loop has at least 3 members. -/
theorem cascadeAux_mem_length :
    ∀ (rest : List KronesAlarm) (last : Int) (cur : List KronesAlarm),
      ∀ s ∈ cascadeAux last cur rest, 3 ≤ s.length := by
  intro rest
  induction rest with
  | nil =>
    intro last cur s hs
    simp only [cascadeAux] at hs
    split at hs
    · simp only [List.mem_singleton] at hs
      subst hs; assumption
    · simp at hs
  | cons a rest ih =>
    intro last cur s hs
    simp only [cascadeAux] at hs
    split at hs
    · exact ih _ _ s hs
    · rcases List.mem_append.mp hs with h | h
      · split at h
        · simp only [List.mem_singleton] at h
          subst h; assumption
        · simp at h
      · exact ih _ _ s h

/-- The concatenation of the sequences emitted by the cascade loop is a
sublist of the running sequence followed by the unprocessed records. -/
theorem cascadeAux_flatten_sublist :
    ∀ (rest : List KronesAlarm) (last : Int) (cur : List KronesAlarm),
      (cascadeAux last cur rest).flatten.Sublist (cur ++ rest) := by
  intro rest
  induction rest with
  | nil =>
    intro last cur
    simp only [cascadeAux]
    split
    · simp
    · simp
  | cons a rest ih =>
    intro last cur
    simp only [cascadeAux]
    split
    · have h := ih a.comes_timestamp (cur ++ [a])
      simpa [List.append_assoc] using h
    · rw [List.flatten_append]
      have h2 := ih a.comes_timestamp [a]
      have h1 : (if 3 ≤ cur.length then [cur] else []).flatten.Sublist cur := by
        split <;> simp
      have h3 := List.Sublist.append h1 h2
      simpa using h3

/-- C1: every cascading sequence returned by `get_cascading_sequences` has
at least 3 members; the returned sequences are pairwise disjoint at the
level of record occurrences, and concatenating all sequences in time order
yields a sublist of the records sorted by `activated_at`, so no record
occurrence appears twice (each record's multiplicity in the concatenation
is bounded by its multiplicity in the input). -/
theorem cascading_sequences_partition (alarms : List KronesAlarm) :
    (∀ s ∈ get_cascading_sequences alarms, 3 ≤ s.length) ∧
    (get_cascading_sequences alarms).flatten.Sublist (sortedAlarms alarms) ∧
    ∀ a : KronesAlarm,
      List.count a (get_cascading_sequences alarms).flatten ≤ List.count a alarms := by
  have hlen : ∀ s ∈ get_cascading_sequences alarms, 3 ≤ s.length := by
    intro s hs
    unfold get_cascading_sequences at hs
    split at hs
    · simp at hs
    · exact cascadeAux_mem_length _ _ _ s hs
  have hsub : (get_cascading_sequences alarms).flatten.Sublist (sortedAlarms alarms) := by
    unfold get_cascading_sequences
    split
    · simp
    · rename_i a rest heq
      rw [heq]
      simpa using cascadeAux_flatten_sublist rest a.comes_timestamp [a]
  refine ⟨hlen, hsub, ?_⟩
  intro a
  have h1 := hsub.count_le a
  have h2 : List.count a (sortedAlarms alarms) = List.count a alarms :=
    (List.perm_insertionSort _ alarms).count_eq a
  omega

/-- Witness for C1 at a concrete input: the single sequence returned for
three records 1 ms apart has at least 3 members. -/
theorem cascading_sequences_partition_witness :
    3 ≤ ([mkT 0, mkT 1, mkT 2] : List KronesAlarm).length :=
  (cascading_sequences_partition [mkT 0, mkT 1, mkT 2]).1 [mkT 0, mkT 1, mkT 2]
    (by decide)

/-- C2: a gap of exactly 300 seconds (300000 ms) between consecutive
records does not close the running sequence, while a gap of 300.001
seconds (300001 ms, here between `mkT 2` and `mkT 300003`) closes it and
starts a new sequence with the current record. -/
theorem cascade_gap_boundary :
    get_cascading_sequences [mkT 0, mkT 300000, mkT 600000] =
      [[mkT 0, mkT 300000, mkT 600000]] ∧
    get_cascading_sequences [mkT 0, mkT 1, mkT 2, mkT 300003, mkT 300004, mkT 300005] =
      [[mkT 0, mkT 1, mkT 2], [mkT 300003, mkT 300004, mkT 300005]] := by
  constructor <;> decide

/-- C7 counterexample: a record cleared exactly 1001 ms after activation
stores `duration_ms = 1000`, not the exact difference 1001 — the float
product `1.001 * 1000` lies just below 1001 and `int(...)` truncates. -/
theorem duration_truncation_counterexample :
    (mkKronesAlarm "MMA" 1 "Warning" "m" "r" 0 (some 1001)).duration_ms =
      some 1000 ∧
    (mkKronesAlarm "MMA" 1 "Warning" "m" "r" 0 (some 1001)).duration_ms ≠
      some (1001 - 0) := by
  have hval : pyDurationMs 1001 = 1000 := by
    unfold pyDurationMs
    have harg : (((1000 * 1001 : Int) : ℚ) / 1000000) = 1001 / 1000 := by
      norm_num
    rw [harg]
    have hA : fl ((1001 : ℚ) / 1000) = (4508103226997866 : ℚ) * 2 ^ (-52 : ℤ) :=
      fl_eval (by norm_num) (by norm_num) (by norm_num)
        (rndHalfEven_eq_floor (Int.floor_eq_iff.mpr ⟨by norm_num, by norm_num⟩)
          (by norm_num))
    rw [hA]
    have hB : fl ((4508103226997866 : ℚ) * 2 ^ (-52 : ℤ) * 1000) =
        (8804889115230207 : ℚ) * 2 ^ (-43 : ℤ) :=
      fl_eval (by norm_num) (by norm_num) (by norm_num)
        (rndHalfEven_eq_floor (Int.floor_eq_iff.mpr ⟨by norm_num, by norm_num⟩)
          (by norm_num))
    rw [hB]
    unfold ratTrunc
    rw [if_pos (by norm_num)]
    exact Int.floor_eq_iff.mpr ⟨by norm_num, by norm_num⟩
  have hmk : (mkKronesAlarm "MMA" 1 "Warning" "m" "r" 0 (some 1001)).duration_ms =
      some (pyDurationMs (1001 - 0)) := rfl
  rw [hmk]
  norm_num [hval]

/-- `pyDurationMs` never strays further than one below the exact
millisecond difference, for any duration up to `2 ^ 40` ms (≈ 35 years):
two half-ulp relative errors of `2 ^ (-53)` keep the pre-truncation value
within one half of the exact integer. -/
theorem pyDurationMs_exact_or_pred (d : Int) (h0 : 0 ≤ d)
    (h1 : d ≤ 1099511627776) :
    pyDurationMs d = d ∨ pyDurationMs d = d - 1 := by
  rcases eq_or_lt_of_le h0 with h | hpos
  · left
    rw [← h]
    unfold pyDurationMs
    have harg : (((1000 * (0 : Int) : Int) : ℚ) / 1000000) = 0 := by norm_num
    rw [harg, fl_zero, zero_mul, fl_zero]
    unfold ratTrunc
    rw [if_pos le_rfl]
    norm_num
  · unfold pyDurationMs
    have harg : (((1000 * d : Int) : ℚ) / 1000000) = (d : ℚ) / 1000 := by
      push_cast
      ring
    rw [harg]
    have hd1 : (1 : ℚ) ≤ (d : ℚ) := by exact_mod_cast hpos
    have hd40 : (d : ℚ) ≤ 1099511627776 := by exact_mod_cast h1
    have hq1 : (0 : ℚ) < (d : ℚ) / 1000 := by positivity
    have e1 := abs_le.mp (fl_err ((d : ℚ) / 1000) hq1)
    have hs_pos : (0 : ℚ) < fl ((d : ℚ) / 1000) := by
      have hlt : (d : ℚ) / 1000 / 9007199254740992 < (d : ℚ) / 1000 :=
        div_lt_self hq1 (by norm_num)
      linarith [e1.1]
    have e2 := abs_le.mp (fl_err (fl ((d : ℚ) / 1000) * 1000) (by positivity))
    have hub : fl (fl ((d : ℚ) / 1000) * 1000) ≤ (d : ℚ) + 1 / 2 := by
      nlinarith [e1.2, e2.2, hd40, hd1, hs_pos]
    have hlb : (d : ℚ) - 1 / 2 ≤ fl (fl ((d : ℚ) / 1000) * 1000) := by
      nlinarith [e1.1, e1.2, e2.1, hd40, hd1, hs_pos]
    have hr_nonneg : (0 : ℚ) ≤ fl (fl ((d : ℚ) / 1000) * 1000) := by linarith
    unfold ratTrunc
    rw [if_pos hr_nonneg]
    have hfloor_le := Int.floor_le (fl (fl ((d : ℚ) / 1000) * 1000))
    have hfloor_gt := Int.lt_floor_add_one (fl (fl ((d : ℚ) / 1000) * 1000))
    have h2 : ⌊fl (fl ((d : ℚ) / 1000) * 1000)⌋ ≤ d := by
      by_contra hcon
      push_neg at hcon
      have hc : (d : ℚ) + 1 ≤ (⌊fl (fl ((d : ℚ) / 1000) * 1000)⌋ : ℚ) := by
        exact_mod_cast hcon
      linarith
    have h3 : d - 1 ≤ ⌊fl (fl ((d : ℚ) / 1000) * 1000)⌋ := by
      by_contra hcon
      push_neg at hcon
      have hc2 : ⌊fl (fl ((d : ℚ) / 1000) * 1000)⌋ ≤ d - 2 := by omega
      have hc : (⌊fl (fl ((d : ℚ) / 1000) * 1000)⌋ : ℚ) ≤ (d : ℚ) - 2 := by
        exact_mod_cast hc2
      linarith
    omega

/-- C7 amended: for every parsed record with both timestamps present (and
a nonnegative difference of at most `2 ^ 40` ms), the stored duration is
`int(total_seconds() * 1000)` of the difference, which equals the exact
millisecond difference or falls one short of it through float truncation;
when the clear timestamp is absent, the duration is absent.  The record is
immutable after construction, so the value is computed exactly once. -/
theorem duration_float_bound (module : String) (msg_nr : Int)
    (atype msg ref : String) (c g : Int) (h0 : c ≤ g)
    (h1 : g - c ≤ 1099511627776) :
    ((mkKronesAlarm module msg_nr atype msg ref c (some g)).duration_ms =
        some (g - c) ∨
     (mkKronesAlarm module msg_nr atype msg ref c (some g)).duration_ms =
        some (g - c - 1)) ∧
    (mkKronesAlarm module msg_nr atype msg ref c none).duration_ms = none := by
  constructor
  · have hmk : (mkKronesAlarm module msg_nr atype msg ref c (some g)).duration_ms =
        some (pyDurationMs (g - c)) := rfl
    rcases pyDurationMs_exact_or_pred (g - c) (by omega) h1 with h | h
    · exact Or.inl (by rw [hmk, h])
    · exact Or.inr (by rw [hmk, h])
  · rfl

/-- Witness for the amended C7 at a concrete input. -/
theorem duration_float_bound_witness :
    (mkKronesAlarm "MMA" 1 "Warning" "m" "r" 0 (some 1001)).duration_ms =
      some (1001 - 0) ∨
    (mkKronesAlarm "MMA" 1 "Warning" "m" "r" 0 (some 1001)).duration_ms =
      some (1001 - 0 - 1) :=
  (duration_float_bound "MMA" 1 "Warning" "m" "r" 0 1001 (by norm_num)
    (by norm_num)).1

/-- The grouping key of
`_build_alarm_patterns`. -/
def pattern_key (a : KronesAlarm) : String := a.module ++ "_" ++ a.alarm_type

/-- One step of `_build_alarm_patterns`: append the alarm to its key's
bucket, creating the bucket at the end when the key is new (Python dicts
preserve insertion order). -/
def addAlarm (ps : List (String × List KronesAlarm)) (a : KronesAlarm) :
    List (String × List KronesAlarm) :=
  if ps.any (fun p => p.1 = pattern_key a) then
    ps.map (fun p => if p.1 = pattern_key a then (p.1, p.2 ++ [a]) else p)
  else ps ++ [(pattern_key a, [a])]

/-- Model of `_build_alarm_patterns`: bucket every alarm under its pattern key. -/
def build_alarm_patterns (alarms : List KronesAlarm) :
    List (String × List KronesAlarm) :=
  alarms.foldl addAlarm []

/-- Model of `get_common_alarms`: keep only groups with at least 5 records, each
capped to its first 10 records. -/
def get_common_alarms (alarms : List KronesAlarm) :
    List (String × List KronesAlarm) :=
  (build_alarm_patterns alarms).filterMap
    (fun p => if 5 ≤ p.2.length then some (p.1, p.2.take 10) else none)

/-- Adding an alarm either keeps the key list unchanged or appends one fresh key. -/
theorem keys_addAlarm (ps : List (String × List KronesAlarm)) (a : KronesAlarm) :
    (addAlarm ps a).map Prod.fst = ps.map Prod.fst ∨
    ((addAlarm ps a).map Prod.fst = ps.map Prod.fst ++ [pattern_key a] ∧
      pattern_key a ∉ ps.map Prod.fst) := by
  unfold addAlarm
  split
  · left
    rw [List.map_map]
    apply List.map_congr_left
    intro p _
    by_cases h : p.1 = pattern_key a <;> simp [h]
  · right
    rename_i h
    simp only [List.any_eq_true, decide_eq_true_eq, not_exists, not_and] at h
    constructor
    · simp
    · simp only [List.mem_map, not_exists, not_and]
      intro p hp he
      exact h p hp he

/-- The keys of the pattern buckets are pairwise distinct. -/
theorem build_patterns_keys_nodup (alarms : List KronesAlarm) :
    ((build_alarm_patterns alarms).map Prod.fst).Nodup := by
  suffices h : ∀ ps : List (String × List KronesAlarm),
      (ps.map Prod.fst).Nodup →
      ((alarms.foldl addAlarm ps).map Prod.fst).Nodup from h [] (by simp)
  induction alarms with
  | nil => intro ps hps; simpa using hps
  | cons a rest ih =>
    intro ps hps
    rw [List.foldl_cons]
    apply ih
    rcases keys_addAlarm ps a with h | ⟨h, hnot⟩
    · rw [h]; exact hps
    · rw [h]
      simp [List.nodup_append, hps, hnot]

/-- In an association list with pairwise distinct keys, a key determines
its bucket. -/
theorem nodup_keys_bucket_unique :
    ∀ (ps : List (String × List KronesAlarm)),
      (ps.map Prod.fst).Nodup →
      ∀ {k : String} {b b' : List KronesAlarm},
        (k, b) ∈ ps → (k, b') ∈ ps → b = b' := by
  intro ps
  induction ps with
  | nil => intro _ _ _ _ h1; simp at h1
  | cons p rest ih =>
    intro h k b b' h1 h2
    simp only [List.map_cons, List.nodup_cons] at h
    rcases List.mem_cons.mp h1 with e1 | m1 <;> rcases List.mem_cons.mp h2 with e2 | m2
    · rw [← e1] at e2
      exact (congrArg Prod.snd e2).symm
    · exfalso
      apply h.1
      rw [← e1]
      exact List.mem_map.mpr ⟨(k, b'), m2, rfl⟩
    · exfalso
      apply h.1
      rw [← e2]
      exact List.mem_map.mpr ⟨(k, b), m1, rfl⟩
    · exact ih h.2 m1 m2

/-- C6: `get_common_alarms` returns exactly the groups with at least 5
records; each returned group is the earliest `min(n, 10)` records of its
bucket in bucket order; a group with fewer than 5 records is absent. -/
theorem common_alarms_spec (alarms : List KronesAlarm) :
    (∀ k m, (k, m) ∈ get_common_alarms alarms →
      ∃ b, (k, b) ∈ build_alarm_patterns alarms ∧ 5 ≤ b.length ∧
        m = b.take 10 ∧ m.length = min b.length 10) ∧
    (∀ k b, (k, b) ∈ build_alarm_patterns alarms → 5 ≤ b.length →
      (k, b.take 10) ∈ get_common_alarms alarms) ∧
    (∀ k b, (k, b) ∈ build_alarm_patterns alarms → b.length < 5 →
      ∀ m, (k, m) ∉ get_common_alarms alarms) := by
  have hfwd : ∀ k m, (k, m) ∈ get_common_alarms alarms →
      ∃ b, (k, b) ∈ build_alarm_patterns alarms ∧ 5 ≤ b.length ∧
        m = b.take 10 ∧ m.length = min b.length 10 := by
    intro k m hm
    rcases List.mem_filterMap.mp hm with ⟨p, hp, hf⟩
    by_cases h5 : 5 ≤ p.2.length
    · rw [if_pos h5] at hf
      have hpair := Option.some.inj hf
      have hk : p.1 = k := congrArg Prod.fst hpair
      have hm2 : p.2.take 10 = m := congrArg Prod.snd hpair
      refine ⟨p.2, ?_, h5, hm2.symm, ?_⟩
      · rw [← hk]; exact hp
      · rw [← hm2, List.length_take, Nat.min_comm]
    · rw [if_neg h5] at hf
      exact absurd hf (by simp)
  refine ⟨hfwd, ?_, ?_⟩
  · intro k b hb h5
    exact List.mem_filterMap.mpr ⟨(k, b), hb, by rw [if_pos h5]⟩
  · intro k b hb hlt m hm
    obtain ⟨b', hb', h5, _, _⟩ := hfwd k m hm
    have hbb : b = b' :=
      nodup_keys_bucket_unique _ (build_patterns_keys_nodup alarms) hb hb'
    rw [hbb] at hlt
    omega

/-- A second concrete alarm, in a different (module, severity) group. -/
def mkB : KronesAlarm :=
  { module := "BAS", msg_nr := 2, alarm_type := "Fault", message := "m",
    sw_ref := "r", comes_timestamp := 0 }

/-- 12 records in one group and 4 in another. -/
def commonWitnessAlarms : List KronesAlarm :=
  List.replicate 12 (mkT 0) ++ List.replicate 4 mkB

/-- Witness for C6: the 12-record group is exposed as its first 10
records. -/
theorem common_alarms_spec_witness :
    ("MMA_Warning", (List.replicate 12 (mkT 0)).take 10) ∈
      get_common_alarms commonWitnessAlarms :=
  (common_alarms_spec commonWitnessAlarms).2.1 "MMA_Warning"
    (List.replicate 12 (mkT 0)) (by decide) (by decide)

/-- The double nearest 1/10 — what the source literal `0.1` denotes. -/
def d01 : ℚ := fl (1 / 10)

/-- The double nearest 1/5 — what the source literal `0.2` denotes. -/
def d02 : ℚ := fl (1 / 5)

/-- The per-tick efficiency factor of `_simulate_production`: 1.0 when no
alarm is active, otherwise `max(0.2, 1.0 - 0.1 * n)` for `n` active
alarms, evaluated in double precision: the int `n` converts exactly, each
arithmetic operation rounds, and `max` compares the two doubles. -/
def efficiency_factor (n : ℕ) : ℚ :=
  if 0 < n then max d02 (fl (1 - fl ((n : ℚ) * d01))) else 1

/-- Model of `production_rate = int(18000 * efficiency_factor)`: one more
correctly-rounded double multiplication, then truncation toward zero. -/
def production_rate_of (n : ℕ) : Int :=
  ratTrunc (fl (18000 * efficiency_factor n))

theorem d01_val : d01 = (7205759403792794 : ℚ) * 2 ^ (-56 : ℤ) := by
  unfold d01
  exact fl_eval (by norm_num) (by norm_num) (by norm_num)
    (rndHalfEven_eq_succ 7205759403792793
      (Int.floor_eq_iff.mpr ⟨by norm_num, by norm_num⟩)
      (by norm_num) (by norm_num))

theorem d02_val : d02 = (7205759403792794 : ℚ) * 2 ^ (-55 : ℤ) := by
  unfold d02
  exact fl_eval (by norm_num) (by norm_num) (by norm_num)
    (rndHalfEven_eq_succ 7205759403792793
      (Int.floor_eq_iff.mpr ⟨by norm_num, by norm_num⟩)
      (by norm_num) (by norm_num))

/-- The double computation of the efficiency at 6 active alarms:
`6 * 0.1` rounds up on a tie to `0.6000000000000001`, so `1.0 - …` gives
`0.3999999999999999` rather than 0.4. -/
theorem eff6_val : efficiency_factor 6 = (7205759403792792 : ℚ) * 2 ^ (-54 : ℤ) := by
  unfold efficiency_factor
  rw [if_pos (by norm_num), d01_val]
  have harg : ((6 : ℕ) : ℚ) * ((7205759403792794 : ℚ) * 2 ^ (-56 : ℤ)) =
      (43234556422756764 : ℚ) * 2 ^ (-56 : ℤ) := by
    push_cast
    ring
  rw [harg]
  have hE : fl ((43234556422756764 : ℚ) * 2 ^ (-56 : ℤ)) =
      (5404319552844596 : ℚ) * 2 ^ (-53 : ℤ) :=
    fl_eval (by norm_num) (by norm_num) (by norm_num)
      (rndHalfEven_eq_tie_odd 5404319552844595
        (Int.floor_eq_iff.mpr ⟨by norm_num, by norm_num⟩)
        (by norm_num) (by norm_num) (by norm_num))
  rw [hE]
  have hF : fl (1 - (5404319552844596 : ℚ) * 2 ^ (-53 : ℤ)) =
      (7205759403792792 : ℚ) * 2 ^ (-54 : ℤ) :=
    fl_eval (by norm_num) (by norm_num) (by norm_num)
      (rndHalfEven_eq_floor (Int.floor_eq_iff.mpr ⟨by norm_num, by norm_num⟩)
        (by norm_num))
  rw [hF, d02_val]
  exact max_eq_right (by norm_num)

/-- The double production rate at 6 active alarms truncates to 7199. -/
theorem rate6_val : production_rate_of 6 = 7199 := by
  unfold production_rate_of
  rw [eff6_val]
  have harg : (18000 : ℚ) * ((7205759403792792 : ℚ) * 2 ^ (-54 : ℤ)) =
      (129703669268270256000 : ℚ) * 2 ^ (-54 : ℤ) := by ring
  rw [harg]
  have hG : fl ((129703669268270256000 : ℚ) * 2 ^ (-54 : ℤ)) =
      (7916483719987198 : ℚ) * 2 ^ (-40 : ℤ) :=
    fl_eval (by norm_num) (by norm_num) (by norm_num)
      (rndHalfEven_eq_floor (Int.floor_eq_iff.mpr ⟨by norm_num, by norm_num⟩)
        (by norm_num))
  rw [hG]
  unfold ratTrunc
  rw [if_pos (by norm_num)]
  exact Int.floor_eq_iff.mpr ⟨by norm_num, by norm_num⟩

/-- At 20 active alarms `20 * 0.1` rounds to exactly 2.0, `1.0 - 2.0` is
negative, and `max` picks the double 0.2. -/
theorem eff20_val : efficiency_factor 20 = d02 := by
  unfold efficiency_factor
  rw [if_pos (by norm_num), d01_val]
  have harg : ((20 : ℕ) : ℚ) * ((7205759403792794 : ℚ) * 2 ^ (-56 : ℤ)) =
      (144115188075855880 : ℚ) * 2 ^ (-56 : ℤ) := by
    push_cast
    ring
  rw [harg]
  have hH : fl ((144115188075855880 : ℚ) * 2 ^ (-56 : ℤ)) =
      (4503599627370496 : ℚ) * 2 ^ (-51 : ℤ) :=
    fl_eval (by norm_num) (by norm_num) (by norm_num)
      (rndHalfEven_eq_floor (Int.floor_eq_iff.mpr ⟨by norm_num, by norm_num⟩)
        (by norm_num))
  rw [hH]
  apply max_eq_left
  have hneg : fl (1 - (4503599627370496 : ℚ) * 2 ^ (-51 : ℤ)) ≤ 0 :=
    fl_nonpos _ (by norm_num)
  have hpos : (0 : ℚ) < d02 := by
    rw [d02_val]
    norm_num
  linarith

/-- C8 counterexample: at 6 active alarms the program's production rate is
7199, while `18000 * max(0.2, 1 - 0.1 * 6)` is 7200 — the double
efficiency `0.3999999999999999` differs from the exact 0.4 and the
truncated product falls one short. -/
theorem production_rate_float_counterexample :
    production_rate_of 6 = 7199 ∧
    (18000 : ℚ) * max 0.2 (1 - 0.1 * 6) = 7200 ∧
    production_rate_of 6 ≠ 7200 ∧
    efficiency_factor 6 ≠ max 0.2 (1 - 0.1 * 6) := by
  refine ⟨rate6_val, ?_, ?_, ?_⟩
  · rw [max_eq_right (by norm_num : (0.2 : ℚ) ≤ 1 - 0.1 * 6)]
    norm_num
  · rw [rate6_val]
    norm_num
  · rw [eff6_val, max_eq_right (by norm_num : (0.2 : ℚ) ≤ 1 - 0.1 * 6)]
    norm_num

/-- C8 amended: on every production tick the efficiency is the
double-precision evaluation of `max(0.2, 1.0 - 0.1 * n)` (for `n = 0` the
code skips the `max` and uses 1.0); it never falls below the exact 0.2 —
with 20 active alarms it is exactly the double 0.2, which lies just above
1/5 — and the production rate is `int(18000 * efficiency)`, which lies
within one truncation plus a relative `2 ^ (-53)` rounding of the product
`18000 * efficiency` (by the counterexample, it is not always equal). -/
theorem production_efficiency_float (n : ℕ) :
    (0.2 : ℚ) ≤ efficiency_factor n ∧
    efficiency_factor 0 = 1 ∧
    efficiency_factor 20 = d02 ∧
    (0.2 : ℚ) < d02 ∧
    (production_rate_of n : ℚ) ≤
      18000 * efficiency_factor n * (1 + 1 / 9007199254740992) ∧
    18000 * efficiency_factor n * (1 - 1 / 9007199254740992) - 1 <
      (production_rate_of n : ℚ) := by
  have hfloor : (0.2 : ℚ) ≤ efficiency_factor n := by
    unfold efficiency_factor
    split
    · refine le_trans ?_ (le_max_left _ _)
      rw [d02_val]
      norm_num
    · norm_num
  have hp : (0 : ℚ) < 18000 * efficiency_factor n := by linarith
  have herr := abs_le.mp (fl_err (18000 * efficiency_factor n) hp)
  have hflpos : (0 : ℚ) ≤ fl (18000 * efficiency_factor n) := by
    have hlt : 18000 * efficiency_factor n / 9007199254740992 <
        18000 * efficiency_factor n := div_lt_self hp (by norm_num)
    linarith [herr.1]
  have hrate : production_rate_of n = ⌊fl (18000 * efficiency_factor n)⌋ := by
    unfold production_rate_of ratTrunc
    rw [if_pos hflpos]
  refine ⟨hfloor, by unfold efficiency_factor; norm_num, eff20_val,
    by rw [d02_val]; norm_num, ?_, ?_⟩
  · rw [hrate]
    have h1 := Int.floor_le (fl (18000 * efficiency_factor n))
    linarith [herr.2]
  · rw [hrate]
    have h2 := Int.lt_floor_add_one (fl (18000 * efficiency_factor n))
    linarith [herr.1]

/-- Classification of a raw timestamp cell as `_parse_alarm_row` sees it
through `str(...)`: a missing value prints as `"nan"`, a present string is
empty, matches the millisecond format, matches the second format, or
matches neither. -/
inductive TsCell
  | nanCell
  | emptyCell
  | msTs (t : Int)
  | secTs (t : Int)
  | badTs
deriving DecidableEq

/-- Classification of the `MsgNr` cell: absent (`int` of NaN raises),
numeric (`int` succeeds), or present but non-numeric (`int` raises). -/
inductive CodeCell
  | missing
  | numeric (n : Int)
  | nonNumeric
deriving DecidableEq

/-- One raw CSV row, restricted to the columns `load_alarm_data` and
`_parse_alarm_row` read (10, 11, 19, 34, 35, 36, 37). -/
structure RawRow where
  alarm_type : String
  comes : TsCell
  goes : TsCell
  modul : Option String
  code : CodeCell
  event : Option String
  sw_ref : String
deriving DecidableEq

/-- Model of `_parse_timestamp`: try the millisecond format, then the second
format, then fall back to the current wall-clock time `now`. -/
def parse_timestamp (now : Int) : TsCell → Int
  | .msTs t => t
  | .secTs t => t
  | _ => now

/-- The dataframe filter of `load_alarm_data`: the severity is one of the
five known values and the module, code and message columns are non-null. -/
def qualifies (r : RawRow) : Bool :=
  (r.alarm_type = "Warning" ∨ r.alarm_type = "Fault" ∨
   r.alarm_type = "FirstFault" ∨ r.alarm_type = "Note" ∨
   r.alarm_type = "Debug") &&
  r.modul.isSome &&
  (match r.code with | .missing => false | _ => true) &&
  r.event.isSome

/-- Model of `_parse_alarm_row`: a missing (`'nan'`) or empty activation timestamp
returns `None` before anything else; then the timestamps are parsed (the
clear timestamp only when not `'nan'`); a raising `int(...)` on the code
column is caught and also yields `None`; otherwise the record is built. -/
def parse_alarm_row (now : Int) (r : RawRow) : Option KronesAlarm :=
  if r.comes = TsCell.nanCell ∨ r.comes = TsCell.emptyCell then none
  else match r.code with
    | .numeric n =>
        some (mkKronesAlarm (r.modul.getD "nan") n r.alarm_type
          (r.event.getD "nan") r.sw_ref (parse_timestamp now r.comes)
          (if r.goes = TsCell.nanCell then none
           else some (parse_timestamp now r.goes)))
    | _ => none

/-- Construction only fills in the duration: the activation timestamp
of a constructed record is the one passed in. -/
theorem mk_comes (module : String) (msg_nr : Int) (atype msg ref : String)
    (c : Int) (g : Option Int) :
    (mkKronesAlarm module msg_nr atype msg ref c g).comes_timestamp = c := by
  unfold mkKronesAlarm post_init
  split <;> rfl

/-- The row loop of `load_alarm_data`: filter to qualifying rows, then
parse each row, skipping rows whose parse yields no record. -/
def load_alarm_data (now : Int) (rows : List RawRow) : List KronesAlarm :=
  (rows.filter qualifies).filterMap (parse_alarm_row now)

/-- A well-formed row that parses to a record. -/
def goodRow : RawRow :=
  { alarm_type := "Warning", comes := .msTs 0, goes := .msTs 1000,
    modul := some "MMA", code := .numeric 7, event := some "msg",
    sw_ref := "r" }

/-- A qualifying row whose code column is present but non-numeric, so
`int(...)` raises during field extraction. -/
def badCodeRow : RawRow :=
  { alarm_type := "Warning", comes := .msTs 0, goes := .msTs 1000,
    modul := some "MMA", code := .nonNumeric, event := some "msg",
    sw_ref := "r" }

/-- A row with a non-numeric code column never yields a record. -/
theorem parse_nonNumeric_none (now : Int) (r : RawRow)
    (h : r.code = CodeCell.nonNumeric) : parse_alarm_row now r = none := by
  unfold parse_alarm_row
  rw [h]
  split <;> rfl

/-- C9: a row whose field extraction raises (here: a non-numeric code
column) is skipped and parsing continues with the remaining rows, so a
single malformed row never aborts the batch; a batch of 100 rows of which
5 have a non-numeric code column yields exactly 95 records and 5 skipped
qualifying rows. -/
theorem malformed_row_skipped (now : Int) (pre post : List RawRow)
    (bad : RawRow) (h : bad.code = CodeCell.nonNumeric) :
    load_alarm_data now (pre ++ bad :: post) =
      load_alarm_data now pre ++ load_alarm_data now post ∧
    (load_alarm_data now
      (List.replicate 95 goodRow ++ List.replicate 5 badCodeRow)).length = 95 ∧
    ((List.replicate 95 goodRow ++ List.replicate 5 badCodeRow).filter
        qualifies).length -
      (load_alarm_data now
        (List.replicate 95 goodRow ++ List.replicate 5 badCodeRow)).length = 5 := by
  refine ⟨?_, by rfl, by rfl⟩
  unfold load_alarm_data
  rw [show pre ++ bad :: post = pre ++ [bad] ++ post by simp]
  rw [List.filter_append, List.filter_append, List.filterMap_append,
    List.filterMap_append]
  have hmid : ([bad].filter qualifies).filterMap (parse_alarm_row now) = [] := by
    cases hq : qualifies bad <;>
      simp [List.filter, hq, parse_nonNumeric_none now bad h]
  rw [hmid, List.append_nil]

/-- Witness for C9 at a concrete input: a malformed row between two good
rows drops out without disturbing its neighbours. -/
theorem malformed_row_skipped_witness :
    load_alarm_data 0 ([goodRow] ++ badCodeRow :: [goodRow]) =
      load_alarm_data 0 [goodRow] ++ load_alarm_data 0 [goodRow] :=
  (malformed_row_skipped 0 [goodRow] [goodRow] badCodeRow rfl).1

/-- C10: a qualifying row whose activation-timestamp cell is missing
(NaN or the empty string) is silently dropped — `_parse_alarm_row`
returns `None`, producing no record; the wall-clock fallback `now` is
used for the activation timestamp exactly when the cell is present but
matches neither timestamp format, while a cell matching either format
keeps its own value. -/
theorem missing_timestamp_dropped (now : Int) (r : RawRow)
    (_h : qualifies r = true) :
    ((r.comes = TsCell.nanCell ∨ r.comes = TsCell.emptyCell) →
      parse_alarm_row now r = none) ∧
    (r.comes = TsCell.badTs →
      ∀ a, parse_alarm_row now r = some a → a.comes_timestamp = now) ∧
    (∀ t, (r.comes = TsCell.msTs t ∨ r.comes = TsCell.secTs t) →
      ∀ a, parse_alarm_row now r = some a → a.comes_timestamp = t) := by
  refine ⟨?_, ?_, ?_⟩
  · intro hc
    unfold parse_alarm_row
    rw [if_pos hc]
  · intro hc a ha
    unfold parse_alarm_row at ha
    rw [hc] at ha
    rw [if_neg (by simp)] at ha
    cases hcode : r.code <;> rw [hcode] at ha
    · exact absurd ha (by simp)
    · rw [← Option.some.inj ha, mk_comes]
      rfl
    · exact absurd ha (by simp)
  · rintro t (hc | hc) a ha <;>
      unfold parse_alarm_row at ha <;>
      rw [hc] at ha <;>
      rw [if_neg (by simp)] at ha <;>
      cases hcode : r.code <;> rw [hcode] at ha
    · exact absurd ha (by simp)
    · rw [← Option.some.inj ha, mk_comes]
      rfl
    · exact absurd ha (by simp)
    · exact absurd ha (by simp)
    · rw [← Option.some.inj ha, mk_comes]
      rfl
    · exact absurd ha (by simp)

/-- A qualifying row whose activation timestamp is missing. -/
def nanComesRow : RawRow :=
  { alarm_type := "Fault", comes := .nanCell, goes := .nanCell,
    modul := some "MMA", code := .numeric 1, event := some "msg",
    sw_ref := "r" }

/-- Witness for C10 at a concrete input. -/
theorem missing_timestamp_dropped_witness :
    parse_alarm_row 0 nanComesRow = none :=
  (missing_timestamp_dropped 0 nanComesRow rfl).1 (Or.inl rfl)

/-- Holds when the pattern occurs at the head of the character list. -/
def subAt : List Char → List Char → Bool
  | _, [] => true
  | [], _ :: _ => false
  | c :: cs, p :: ps => (c == p) && subAt cs ps

/-- Holds when the pattern occurs contiguously anywhere in the list. -/
def subIn : List Char → List Char → Bool
  | [], pat => pat.isEmpty
  | c :: cs, pat => subAt (c :: cs) pat || subIn cs pat

/-- Python's `pat in s` on strings: contiguous substring test. -/
def strContains (s pat : String) : Bool := subIn s.data pat.data

/-- Python's `str.lower()` (the rule patterns are ASCII). -/
def lowerStr (s : String) : String := ⟨s.data.map Char.toLower⟩

/-- The values a Live State Tree tag can hold. -/
inductive TagValue
  | b : Bool → TagValue
  | i : Int → TagValue
  | f : ℚ → TagValue
  | s : String → TagValue
deriving DecidableEq

/-- Model of `_activate_alarm`: the list of `(tag, value)` writes performed for an
alarm, in order.  `dev` stands for the random deviation
`random.uniform(5.0, 15.0)` drawn for SBC stretching-drive alarms. -/
def activate_writes (dev : ℚ) (a : KronesAlarm) : List (String × TagValue) :=
  if a.module = "MMA" then
    if strContains (lowerStr a.message) "fault routine" then
      [("ns=2;s=MMA.FaultRoutine", .b true)]
    else if strContains (lowerStr a.message) "manual" then
      [("ns=2;s=MMA.ManualOverride", .b true)]
    else if strContains (lowerStr a.message) "dehumidifier" then
      [("ns=2;s=MMA.AirDehumidifier", .b false)]
    else if strContains (lowerStr a.message) "guard door" then
      [("ns=2;s=MMA.GuardDoor1", .b false)]
    else if strContains (lowerStr a.message) "level" && strContains a.message "LT100" then
      [("ns=2;s=MMA.LevelLT100", .f 95)]
    else if strContains (lowerStr a.message) "container transfer" then
      [("ns=2;s=MMA.ContainerTransfer", .b false)]
    else if strContains (lowerStr a.message) "cap feed" then
      [("ns=2;s=MMA.CapFeedUnit", .b false)]
    else []
  else if a.module = "BAS" then
    if strContains (lowerStr a.message) "BCM server" then
      [("ns=2;s=BAS.BCMServer", .s "OFFLINE"), ("ns=2;s=BAS.CommHealth", .i 0)]
    else []
  else if a.module = "SDC" then
    if strContains (lowerStr a.message) "power supply" then
      [("ns=2;s=SDC.PowerSupply", .s "FAULT")]
    else if strContains (lowerStr a.message) "servo drive" then
      [("ns=2;s=SDC.ServoDrive", .s "FAULT")]
    else if strContains (lowerStr a.message) "brake" then
      [("ns=2;s=SDC.BrakeTorque", .f 50)]
    else []
  else if a.module = "SBC" then
    if strContains (lowerStr a.message) "stretching drive" then
      ("ns=2;s=SBC.PositionDev", .f dev) ::
        (if strContains a.message "station: 12" then
          [("ns=2;s=SBC.StretchDrive12", .f dev)]
        else if strContains a.message "station: 13" then
          [("ns=2;s=SBC.StretchDrive13", .f dev)]
        else if strContains a.message "station: 14" then
          [("ns=2;s=SBC.StretchDrive14", .f dev)]
        else [])
    else []
  else []

/-- Model of `_clear_random_alarm`: the list of `(tag, value)` writes performed
when an alarm is cleared.  For MMA the rule chain mirrors activation; for
BAS, SDC and SBC every tag of the module group is reset unconditionally. -/
def clear_writes (a : KronesAlarm) : List (String × TagValue) :=
  if a.module = "MMA" then
    if strContains (lowerStr a.message) "fault routine" then
      [("ns=2;s=MMA.FaultRoutine", .b false)]
    else if strContains (lowerStr a.message) "manual" then
      [("ns=2;s=MMA.ManualOverride", .b false)]
    else if strContains (lowerStr a.message) "dehumidifier" then
      [("ns=2;s=MMA.AirDehumidifier", .b true)]
    else if strContains (lowerStr a.message) "guard door" then
      [("ns=2;s=MMA.GuardDoor1", .b true)]
    else if strContains (lowerStr a.message) "level" && strContains a.message "LT100" then
      [("ns=2;s=MMA.LevelLT100", .f 50)]
    else if strContains (lowerStr a.message) "container transfer" then
      [("ns=2;s=MMA.ContainerTransfer", .b true)]
    else if strContains (lowerStr a.message) "cap feed" then
      [("ns=2;s=MMA.CapFeedUnit", .b true)]
    else []
  else if a.module = "BAS" then
    [("ns=2;s=BAS.BCMServer", .s "ONLINE"), ("ns=2;s=BAS.CommHealth", .i 100)]
  else if a.module = "SDC" then
    [("ns=2;s=SDC.PowerSupply", .s "OK"), ("ns=2;s=SDC.ServoDrive", .s "OK"),
     ("ns=2;s=SDC.BrakeTorque", .f 100)]
  else if a.module = "SBC" then
    [("ns=2;s=SBC.PositionDev", .f 0), ("ns=2;s=SBC.StretchDrive12", .f 0),
     ("ns=2;s=SBC.StretchDrive13", .f 0), ("ns=2;s=SBC.StretchDrive14", .f 0)]
  else []

/-- The nominal (initial) value of each simulated tag, from the address
space setup in `krones_opcua_server.py`. -/
def nominalValue (t : String) : Option TagValue :=
  List.lookup t
    [("ns=2;s=MMA.FaultRoutine", TagValue.b false),
     ("ns=2;s=MMA.ManualOverride", TagValue.b false),
     ("ns=2;s=MMA.AirDehumidifier", TagValue.b true),
     ("ns=2;s=MMA.GuardDoor1", TagValue.b true),
     ("ns=2;s=MMA.LevelLT100", TagValue.f 50),
     ("ns=2;s=MMA.ContainerTransfer", TagValue.b true),
     ("ns=2;s=MMA.CapFeedUnit", TagValue.b true),
     ("ns=2;s=BAS.BCMServer", TagValue.s "ONLINE"),
     ("ns=2;s=BAS.CommHealth", TagValue.i 100),
     ("ns=2;s=SDC.PowerSupply", TagValue.s "OK"),
     ("ns=2;s=SDC.ServoDrive", TagValue.s "OK"),
     ("ns=2;s=SDC.BrakeTorque", TagValue.f 100),
     ("ns=2;s=SBC.PositionDev", TagValue.f 0),
     ("ns=2;s=SBC.StretchDrive12", TagValue.f 0),
     ("ns=2;s=SBC.StretchDrive13", TagValue.f 0),
     ("ns=2;s=SBC.StretchDrive14", TagValue.f 0)]

/-- An SDC alarm whose message matches the "power supply" rule. -/
def sdcPowerAlarm : KronesAlarm :=
  { module := "SDC", msg_nr := 1, alarm_type := "Fault",
    message := "Power supply failure", sw_ref := "r", comes_timestamp := 0 }

/-- C3 counterexample: activating an SDC power-supply alarm perturbs only
the power-supply tag, but clearing it also writes the servo-drive (and
brake-torque) tags, so clearing is not the inverse of activation. -/
theorem clear_not_exact_inverse :
    activate_writes 7 sdcPowerAlarm =
      [("ns=2;s=SDC.PowerSupply", TagValue.s "FAULT")] ∧
    "ns=2;s=SDC.ServoDrive" ∈ (clear_writes sdcPowerAlarm).map Prod.fst ∧
    "ns=2;s=SDC.ServoDrive" ∉ (activate_writes 7 sdcPowerAlarm).map Prod.fst := by
  refine ⟨by decide, by decide, by decide⟩

/-- C3 amended: every tag written by clearing is restored to its nominal
value; for MMA alarms clearing writes exactly the tags activation
perturbed (same first-match rule chain); for BAS, SDC and SBC alarms
clearing unconditionally resets every tag of the module group, regardless
of which tags activation perturbed. -/
theorem clear_restores_nominal (dev : ℚ) (a : KronesAlarm) :
    (∀ t v, (t, v) ∈ clear_writes a → nominalValue t = some v) ∧
    (a.module = "MMA" →
      (clear_writes a).map Prod.fst = (activate_writes dev a).map Prod.fst) ∧
    (a.module = "BAS" → clear_writes a =
      [("ns=2;s=BAS.BCMServer", TagValue.s "ONLINE"),
       ("ns=2;s=BAS.CommHealth", TagValue.i 100)]) ∧
    (a.module = "SDC" → clear_writes a =
      [("ns=2;s=SDC.PowerSupply", TagValue.s "OK"),
       ("ns=2;s=SDC.ServoDrive", TagValue.s "OK"),
       ("ns=2;s=SDC.BrakeTorque", TagValue.f 100)]) ∧
    (a.module = "SBC" → clear_writes a =
      [("ns=2;s=SBC.PositionDev", TagValue.f 0),
       ("ns=2;s=SBC.StretchDrive12", TagValue.f 0),
       ("ns=2;s=SBC.StretchDrive13", TagValue.f 0),
       ("ns=2;s=SBC.StretchDrive14", TagValue.f 0)]) := by
  refine ⟨?_, ?_, ?_, ?_, ?_⟩
  · intro t v hv
    unfold clear_writes at hv
    split_ifs at hv <;> fin_cases hv <;> rfl
  · intro hm
    unfold clear_writes activate_writes
    rw [hm]
    simp only [String.reduceEq, reduceIte]
    split_ifs <;> rfl
  · intro hm
    unfold clear_writes
    rw [hm]
    simp only [String.reduceEq, reduceIte]
  · intro hm
    unfold clear_writes
    rw [hm]
    simp only [String.reduceEq, reduceIte]
  · intro hm
    unfold clear_writes
    rw [hm]
    simp only [String.reduceEq, reduceIte]

/-- Witness for the amended C3 at a concrete input: clearing the concrete
SDC alarm resets the three SDC tags. -/
theorem clear_restores_nominal_witness :
    clear_writes sdcPowerAlarm =
      [("ns=2;s=SDC.PowerSupply", TagValue.s "OK"),
       ("ns=2;s=SDC.ServoDrive", TagValue.s "OK"),
       ("ns=2;s=SDC.BrakeTorque", TagValue.f 100)] :=
  (clear_restores_nominal 7 sdcPowerAlarm).2.2.2.1 rfl

/-- One tick of the alarm-replay loop in `_simulate_real_alarms`, acting
on `current_alarms` (the scenario coroutines touch tags, never this
list).  In order: `_trigger_alarm_sequence` appends the first at most 5
members of a cascading sequence chosen from `seqs` (skipped exactly when
there are no sequences); then, exactly when the list is nonempty,
`_clear_random_alarm` removes the first occurrence of a chosen member;
finally `_trigger_random_alarm` appends one alarm chosen from the parsed
pool (skipped exactly when the pool is empty).  The random choices are
modelled as nondeterminism; no step consults a record's `duration_ms`. -/
def SimTick (pool : List KronesAlarm) (seqs : List (List KronesAlarm))
    (s s' : List KronesAlarm) : Prop :=
  ∃ s1 s2 : List KronesAlarm,
    ((seqs = [] ∧ s1 = s) ∨ ∃ q ∈ seqs, s1 = s ++ q.take 5) ∧
    ((s1 = [] ∧ s2 = s1) ∨ ∃ b ∈ s1, s2 = s1.erase b) ∧
    ((pool = [] ∧ s' = s2) ∨ ∃ r ∈ pool, s' = s2 ++ [r])

/-- States of `current_alarms` reachable from the empty initial state. -/
def ReachableSim (pool : List KronesAlarm) (seqs : List (List KronesAlarm))
    (s : List KronesAlarm) : Prop :=
  Relation.ReflTransGen (SimTick pool seqs) [] s

/-- A concrete tick over the pool `[mkT 0, mkT 1, mkT 2]` and its own
cascading sequences: replay the sequence `[mkT 0, mkT 1, mkT 2]`, clear
`mkT 1`, then randomly activate `mkT 0` a second time. -/
def sampleTick :
    SimTick [mkT 0, mkT 1, mkT 2] (get_cascading_sequences [mkT 0, mkT 1, mkT 2])
      [] [mkT 0, mkT 2, mkT 0] :=
  ⟨[mkT 0, mkT 1, mkT 2], [mkT 0, mkT 2],
    Or.inr ⟨[mkT 0, mkT 1, mkT 2], by decide, by decide⟩,
    Or.inr ⟨mkT 1, by decide, by decide⟩,
    Or.inr ⟨mkT 0, by decide, by decide⟩⟩

/-- C4 counterexample: one faithful tick — sequence replay of
`[mkT 0, mkT 1, mkT 2]`, the mandatory clear removing `mkT 1`, then the
unconditional random activation picking `mkT 0` again — leaves
`current_alarms = [mkT 0, mkT 2, mkT 0]`, which holds `mkT 0` twice: the
list is not a set. -/
theorem active_alarms_not_a_set :
    ReachableSim [mkT 0, mkT 1, mkT 2] (get_cascading_sequences [mkT 0, mkT 1, mkT 2])
      [mkT 0, mkT 2, mkT 0] ∧
    ¬ ([mkT 0, mkT 2, mkT 0] : List KronesAlarm).Nodup ∧
    List.count (mkT 0) [mkT 0, mkT 2, mkT 0] = 2 :=
  ⟨Relation.ReflTransGen.single sampleTick, by decide, by decide⟩

/-- Members appearing after a tick that were not there before come from
the parsed pool or a replayed sequence prefix. -/
theorem simTick_mem {pool : List KronesAlarm} {seqs : List (List KronesAlarm)}
    {s s' : List KronesAlarm} (h : SimTick pool seqs s s') :
    ∀ x ∈ s', x ∈ s ∨ x ∈ pool ∨ ∃ q ∈ seqs, x ∈ q.take 5 := by
  obtain ⟨s1, s2, hseq, hclear, hrand⟩ := h
  intro x hx
  have hx2 : x ∈ s2 ∨ x ∈ pool := by
    rcases hrand with ⟨_, heq⟩ | ⟨r, hr, heq⟩
    · rw [heq] at hx
      exact Or.inl hx
    · rw [heq] at hx
      rcases List.mem_append.mp hx with h1 | h1
      · exact Or.inl h1
      · rw [List.mem_singleton] at h1
        subst h1
        exact Or.inr hr
  rcases hx2 with hx2 | hx2
  · have hx1 : x ∈ s1 := by
      rcases hclear with ⟨_, heq⟩ | ⟨b, _, heq⟩
      · rw [heq] at hx2
        exact hx2
      · rw [heq] at hx2
        exact List.mem_of_mem_erase hx2
    rcases hseq with ⟨_, heq⟩ | ⟨q, hq, heq⟩
    · rw [heq] at hx1
      exact Or.inl hx1
    · rw [heq] at hx1
      rcases List.mem_append.mp hx1 with h1 | h1
      · exact Or.inl h1
      · exact Or.inr (Or.inr ⟨q, hq, h1⟩)
  · exact Or.inr (Or.inl hx2)

/-- A tick removes at most one occurrence of any record: only the single
clear of `_clear_random_alarm` ever takes a record out. -/
theorem simTick_count {pool : List KronesAlarm} {seqs : List (List KronesAlarm)}
    {s s' : List KronesAlarm} (h : SimTick pool seqs s s') (x : KronesAlarm) :
    List.count x s - 1 ≤ List.count x s' := by
  obtain ⟨s1, s2, hseq, hclear, hrand⟩ := h
  have c1 : List.count x s ≤ List.count x s1 := by
    rcases hseq with ⟨_, heq⟩ | ⟨q, _, heq⟩ <;>
      simp [heq, List.count_append]
  have c2 : List.count x s1 - 1 ≤ List.count x s2 := by
    rcases hclear with ⟨_, heq⟩ | ⟨b, _, heq⟩
    · rw [heq]
      omega
    · rw [heq, List.count_erase]
      split <;> omega
  have c3 : List.count x s2 ≤ List.count x s' := by
    rcases hrand with ⟨_, heq⟩ | ⟨r, _, heq⟩ <;>
      simp [heq, List.count_append]
  omega

/-- Every record in a reachable state came from the pool or from a
replayed cascading-sequence prefix. -/
theorem reachableSim_mem {pool : List KronesAlarm}
    {seqs : List (List KronesAlarm)} {s : List KronesAlarm}
    (h : ReachableSim pool seqs s) :
    ∀ x ∈ s, x ∈ pool ∨ ∃ q ∈ seqs, x ∈ q.take 5 := by
  unfold ReachableSim at h
  induction h with
  | refl => intro x hx; simp at hx
  | tail hst step ih =>
    intro x hx
    rcases simTick_mem step x hx with h1 | h1
    · exact ih x h1
    · exact h1

/-- C4 amended: `active_alarms` is a multiset — the same record may be a
member more than once, since both activation paths append without a
membership check; per tick, records enter only through the two activation
paths (sequence replay of up to the first 5 members, and the single
random activation) and at most one occurrence leaves, only through the
engine's clear action — never through the record's own recorded
duration — and every reachable member originates from the parsed pool or
a replayed sequence prefix. -/
theorem active_alarms_multiset (pool : List KronesAlarm)
    (seqs : List (List KronesAlarm)) (s s' : List KronesAlarm) :
    (SimTick pool seqs s s' →
      ∀ x ∈ s', x ∈ s ∨ x ∈ pool ∨ ∃ q ∈ seqs, x ∈ q.take 5) ∧
    (SimTick pool seqs s s' →
      ∀ x : KronesAlarm, List.count x s - 1 ≤ List.count x s') ∧
    (ReachableSim pool seqs s → ∀ x ∈ s, x ∈ pool ∨ ∃ q ∈ seqs, x ∈ q.take 5) :=
  ⟨fun h => simTick_mem h, fun h x => simTick_count h x,
   fun h => reachableSim_mem h⟩

/-- Witness for the amended C4 at a concrete input: the record `mkT 2`,
newly active after the sample tick, is accounted for by the pool. -/
theorem active_alarms_multiset_witness :
    mkT 2 ∈ ([] : List KronesAlarm) ∨ mkT 2 ∈ [mkT 0, mkT 1, mkT 2] ∨
      ∃ q ∈ get_cascading_sequences [mkT 0, mkT 1, mkT 2], mkT 2 ∈ q.take 5 :=
  (active_alarms_multiset [mkT 0, mkT 1, mkT 2]
      (get_cascading_sequences [mkT 0, mkT 1, mkT 2]) [] [mkT 0, mkT 2, mkT 0]).1
    sampleTick (mkT 2) (by decide)

/-- The two scripted scenarios. -/
inductive ScenId
  | A
  | B
deriving DecidableEq

/-- One observable event of the scenario machinery: entering a scenario
coroutine, a tag write, a sleep (milliseconds), or returning from the
coroutine. -/
inductive ScenEvent
  | start : ScenId → ScenEvent
  | setTag : String → TagValue → ScenEvent
  | sleepMs : ℚ → ScenEvent
  | finish : ScenId → ScenEvent
deriving DecidableEq

/-- Model of `_trigger_scenario_a` as its full event script: line state STOPPED,
six symptom tags asserted with 5 ms pauses, a 10 s dwell, all six tags
reset, line state RUNNING. -/
def scriptA : List ScenEvent :=
  [.start .A,
   .setTag "ns=2;s=Process.LineState" (.s "STOPPED"),
   .setTag "ns=2;s=MMA.MotorProtector100" (.b true), .sleepMs 5,
   .setTag "ns=2;s=MMA.MotorProtector101" (.b true), .sleepMs 5,
   .setTag "ns=2;s=MMA.MotorProtector103" (.b true), .sleepMs 5,
   .setTag "ns=2;s=MMA.ESTOPTriggered" (.b true), .sleepMs 5,
   .setTag "ns=2;s=BAS.PowerLoss" (.b true), .sleepMs 5,
   .setTag "ns=2;s=BAS.ProfibusFault" (.b true),
   .sleepMs 10000,
   .setTag "ns=2;s=MMA.MotorProtector100" (.b false),
   .setTag "ns=2;s=MMA.MotorProtector101" (.b false),
   .setTag "ns=2;s=MMA.MotorProtector103" (.b false),
   .setTag "ns=2;s=MMA.ESTOPTriggered" (.b false),
   .setTag "ns=2;s=BAS.PowerLoss" (.b false),
   .setTag "ns=2;s=BAS.ProfibusFault" (.b false),
   .setTag "ns=2;s=Process.LineState" (.s "RUNNING"),
   .finish .A]

/-- Model of `_trigger_scenario_b` as its full event script. -/
def scriptB : List ScenEvent :=
  [.start .B,
   .setTag "ns=2;s=Process.LineState" (.s "STOPPED"),
   .setTag "ns=2;s=MMA.LevelTooHighLT100" (.b true), .sleepMs 5,
   .setTag "ns=2;s=MMA.GuardDoorOpen1" (.b true), .sleepMs 5,
   .setTag "ns=2;s=MMA.OperatorPanelAccess" (.b true), .sleepMs 5,
   .setTag "ns=2;s=MMA.GuardDoorReset" (.b true),
   .sleepMs 10000,
   .setTag "ns=2;s=MMA.LevelTooHighLT100" (.b false),
   .setTag "ns=2;s=MMA.GuardDoorOpen1" (.b false),
   .setTag "ns=2;s=MMA.OperatorPanelAccess" (.b false),
   .setTag "ns=2;s=MMA.GuardDoorReset" (.b false),
   .setTag "ns=2;s=Process.LineState" (.s "RUNNING"),
   .finish .B]

/-- Iteration `i` of the alternator in `_simulate_real_alarms` runs
scenario A when `scenario_toggle` is false (even iterations, since the
toggle starts false and flips each trigger), otherwise scenario B. -/
def scenarioOf (i : ℕ) : List ScenEvent :=
  if i % 2 = 0 then scriptA else scriptB

/-- The scenario-event trace produced by the first `n` scenario triggers
of the alternator loop.  The loop awaits each scenario coroutine inline,
so its trace is the concatenation of complete scripts. -/
def alternatorTrace (n : ℕ) : List ScenEvent :=
  ((List.range n).map scenarioOf).flatten

def isStart : ScenEvent → Bool
  | .start _ => true
  | _ => false

def isFinish : ScenEvent → Bool
  | .finish _ => true
  | _ => false

/-- Number of scenarios entered but not yet returned from, over a trace. -/
def openCount (l : List ScenEvent) : Int :=
  (l.countP isStart : Int) - (l.countP isFinish : Int)

/-- A well-bracketed event block: balanced, never more than one scenario
open at any cut, and a scenario only starts when none is open. -/
def GoodBlock (l : List ScenEvent) : Prop :=
  openCount l = 0 ∧
  (∀ k, k ≤ l.length →
    0 ≤ openCount (l.take k) ∧ openCount (l.take k) ≤ 1) ∧
  (∀ k, k < l.length → isStart (l.getD k (ScenEvent.sleepMs 0)) = true →
    openCount (l.take k) = 0)

theorem goodBlock_append {l₁ l₂ : List ScenEvent}
    (h1 : GoodBlock l₁) (h2 : GoodBlock l₂) : GoodBlock (l₁ ++ l₂) := by
  obtain ⟨b1, p1, s1⟩ := h1
  obtain ⟨b2, p2, s2⟩ := h2
  have hc : ∀ m, openCount (l₁ ++ m) = openCount m := by
    intro m
    unfold openCount at b1 ⊢
    rw [List.countP_append, List.countP_append]
    push_cast
    omega
  refine ⟨?_, ?_, ?_⟩
  · rw [hc l₂]; exact b2
  · intro k hk
    rw [List.take_append_eq_append_take]
    by_cases hkl : k ≤ l₁.length
    · have h0 : k - l₁.length = 0 := by omega
      rw [h0, List.take_zero, List.append_nil]
      exact p1 k hkl
    · rw [List.take_of_length_le (by omega : l₁.length ≤ k), hc]
      apply p2
      rw [List.length_append] at hk
      omega
  · intro k hk hstart
    rw [List.take_append_eq_append_take]
    by_cases hkl : k < l₁.length
    · have h0 : k - l₁.length = 0 := by omega
      rw [h0, List.take_zero, List.append_nil]
      apply s1 k hkl
      rw [List.getD_append _ _ _ k hkl] at hstart
      exact hstart
    · have hl : l₁.length ≤ k := by omega
      rw [List.take_of_length_le hl, hc]
      apply s2 (k - l₁.length)
      · rw [List.length_append] at hk
        omega
      · rw [List.getD_append_right _ _ _ k hl] at hstart
        exact hstart

theorem goodBlock_scriptA : GoodBlock scriptA := by
  unfold GoodBlock
  decide

theorem goodBlock_scriptB : GoodBlock scriptB := by
  unfold GoodBlock
  decide

theorem goodBlock_trace (n : ℕ) : GoodBlock (alternatorTrace n) := by
  induction n with
  | zero =>
    unfold GoodBlock
    decide
  | succ n ih =>
    have hsplit : alternatorTrace (n + 1) = alternatorTrace n ++ scenarioOf n := by
      unfold alternatorTrace
      rw [List.range_succ, List.map_append, List.flatten_append]
      simp
    rw [hsplit]
    apply goodBlock_append ih
    unfold scenarioOf
    split
    · exact goodBlock_scriptA
    · exact goodBlock_scriptB

/-- C5: over any number of alternator triggers, the scenario-event trace
is a concatenation of complete scripts: every started scenario finishes
(the trace is balanced), at no cut is more than one scenario
mid-execution, and a scenario only starts at a cut where no scenario is
open — in particular scenario B never starts while scenario A's dwell or
reset phase is pending.  The alternator awaits each scenario coroutine
inline, which is what serializes the scripts. -/
theorem scenario_exclusive (n : ℕ) :
    openCount (alternatorTrace n) = 0 ∧
    (∀ k, k ≤ (alternatorTrace n).length →
      0 ≤ openCount ((alternatorTrace n).take k) ∧
      openCount ((alternatorTrace n).take k) ≤ 1) ∧
    (∀ k, k < (alternatorTrace n).length →
      isStart ((alternatorTrace n).getD k (ScenEvent.sleepMs 0)) = true →
      openCount ((alternatorTrace n).take k) = 0) :=
  ⟨(goodBlock_trace n).1, (goodBlock_trace n).2.1, (goodBlock_trace n).2.2⟩

/-- Witness for C5 at a concrete input: one cut into a two-scenario trace
has exactly one scenario open. -/
theorem scenario_exclusive_witness :
    0 ≤ openCount ((alternatorTrace 2).take 1) ∧
    openCount ((alternatorTrace 2).take 1) ≤ 1 :=
  (scenario_exclusive 2).2.1 1 (by decide)
